import Mathlib

/-!
# `server.mjs`: a small HTTP server, embedded and verified

The development follows the source file top to bottom:

* strings and buffers (`JsString`, `bufferFrom`, `bufferToString`),
* `generateHTML`, `sendResponse`, `handleGetRequest`,
* the pieces of the host library the POST handler calls
  (`String.prototype.trim`, `querystring.parse`),
* `escapeHtml`, `handlePostRequest` with its three stream listeners,
* the request listener passed to `http.createServer`,
* the request stream of the runtime, which delivers the events to the
  listeners (`deliver`, `receive`).

A response object is represented by the list of responses written to it.
-/

namespace Server

/-! ## Strings and buffers -/

/-- A JavaScript string.  Every string this program handles is well formed
(string literals, UTF-8 decoded request bytes, percent-decoded form fields), so
it is represented by its list of Unicode scalar values. -/
abbrev JsString := List Char

/-- Number of UTF-16 code units of one scalar value. -/
def utf16Size (c : Char) : Nat :=
  if c.toNat < 0x10000 then 1 else 2

/-- The `length` property of a string: its number of UTF-16 code units. -/
def jsLength (s : JsString) : Nat :=
  (s.map utf16Size).sum

/-- The UTF-8 encoding of one scalar value. -/
def utf8EncodeChar (c : Char) : List Nat :=
  let n := c.toNat
  if n < 0x80 then [n]
  else if n < 0x800 then [0xC0 + n / 64, 0x80 + n % 64]
  else if n < 0x10000 then [0xE0 + n / 4096, 0x80 + n / 64 % 64, 0x80 + n % 64]
  else [0xF0 + n / 262144, 0x80 + n / 4096 % 64, 0x80 + n / 64 % 64, 0x80 + n % 64]

/-- `Buffer.from(html, 'utf8')`: the bytes of the UTF-8 encoding. -/
def bufferFrom (s : JsString) : List Nat :=
  s.flatMap utf8EncodeChar

/-! ## Responses -/

/-- A header value handed to `writeHead`: a string or a number. -/
inductive HeaderValue where
  | text (s : String)
  | number (n : Nat)
  deriving DecidableEq, Repr

/-- One `writeHead` + `end` pair: status code, header object (in source order)
and body bytes. -/
structure Response where
  statusCode : Nat
  headers : List (String × HeaderValue)
  body : List Nat
  deriving DecidableEq, Repr

/-- The response object `res`, as the list of `writeHead` + `end` calls made on
it so far, in order.  A second entry stands for a second `writeHead` on the
same object, which the runtime rejects as a write after the headers were
sent. -/
abbrev Res := List Response

/-- The source's `generateHTML(title, content)` template literal. -/
def generateHTML (title content : JsString) : JsString :=
  "<!DOCTYPE html>\n<html lang=\"en\">\n  <head>\n    <meta charset=\"UTF-8\" />\n    <title>".toList
    ++ title ++ "</title>\n  </head>\n  <body>\n    <h1>".toList
    ++ title ++ "</h1>\n    ".toList
    ++ content ++ "\n  </body>\n</html>".toList

/-- The source's `sendResponse(res, statusCode, html)`. -/
def sendResponse (res : Res) (statusCode : Nat) (html : JsString) : Res :=
  let body := bufferFrom html
  res ++ [{ statusCode := statusCode,
            headers := [("Content-Type", .text "text/html; charset=utf-8"),
                        ("Content-Length", .number body.length),
                        ("X-Content-Type-Options", .text "nosniff")],
            body := body }]

/-- The source's `handleGetRequest(pathname, res)`: a `switch` on strict string
equality. -/
def handleGetRequest (pathname : JsString) (res : Res) : Res :=
  if pathname = "/".toList then
    sendResponse res 200 (generateHTML "Home".toList "<p>Welcome to the Home Page</p>".toList)
  else if pathname = "/about".toList then
    sendResponse res 200 (generateHTML "About".toList "<p>Learn more about us</p>".toList)
  else if pathname = "/contact".toList then
    sendResponse res 200 (generateHTML "Contact".toList "<p>Get in touch</p>".toList)
  else
    sendResponse res 404 (generateHTML "404 Not Found".toList "<p>Page Not Found</p>".toList)

/-! ## Host library: UTF-8 decoding, `trim`, `querystring.parse` -/

/-- Decoder state inside a multi-byte sequence: the code point bits read so
far, the continuation bytes still expected, and the range allowed for the next
byte. -/
structure Utf8State where
  codePoint : Nat
  needed : Nat
  lower : Nat
  upper : Nat

/-- The decoder's reading of a byte met outside a sequence: the characters it
emits and the sequence it opens, if any. -/
def utf8Lead (b : Nat) : JsString × Option Utf8State :=
  if b < 0x80 then ([Char.ofNat b], none)
  else if 0xC2 ≤ b ∧ b ≤ 0xDF then
    ([], some { codePoint := b % 32, needed := 1, lower := 0x80, upper := 0xBF })
  else if 0xE0 ≤ b ∧ b ≤ 0xEF then
    ([], some { codePoint := b % 16, needed := 2,
                lower := if b = 0xE0 then 0xA0 else 0x80,
                upper := if b = 0xED then 0x9F else 0xBF })
  else if 0xF0 ≤ b ∧ b ≤ 0xF4 then
    ([], some { codePoint := b % 8, needed := 3,
                lower := if b = 0xF0 then 0x90 else 0x80,
                upper := if b = 0xF4 then 0x8F else 0xBF })
  else ([Char.ofNat 0xFFFD], none)

/-- UTF-8 decoding with replacement: an ill-formed or truncated sequence gives
one U+FFFD and decoding resumes at the byte that broke it. -/
def utf8Decode : Option Utf8State → List Nat → JsString
  | none, [] => []
  | some _, [] => [Char.ofNat 0xFFFD]
  | none, b :: bs => (utf8Lead b).1 ++ utf8Decode (utf8Lead b).2 bs
  | some st, b :: bs =>
    if st.lower ≤ b ∧ b ≤ st.upper then
      if st.needed = 1 then
        Char.ofNat (st.codePoint * 64 + b % 64) :: utf8Decode none bs
      else
        utf8Decode (some { codePoint := st.codePoint * 64 + b % 64, needed := st.needed - 1,
                           lower := 0x80, upper := 0xBF }) bs
    else
      Char.ofNat 0xFFFD :: ((utf8Lead b).1 ++ utf8Decode (utf8Lead b).2 bs)

/-- `chunk.toString()` on a buffer: its bytes decoded as UTF-8. -/
def bufferToString (bytes : List Nat) : JsString :=
  utf8Decode none bytes

/-- White space and line terminators, the characters `trim` strips. -/
def isTrimmable (c : Char) : Bool :=
  let n := c.toNat
  n = 0x09 || n = 0x0A || n = 0x0B || n = 0x0C || n = 0x0D || n = 0x20 || n = 0xA0
    || n = 0x1680 || (0x2000 ≤ n && n ≤ 0x200A) || n = 0x2028 || n = 0x2029
    || n = 0x202F || n = 0x205F || n = 0x3000 || n = 0xFEFF

/-- `String.prototype.trim`. -/
def trim (s : JsString) : JsString :=
  ((s.dropWhile isTrimmable).reverse.dropWhile isTrimmable).reverse

/-- Value of a hexadecimal digit given by its code unit. -/
def unhex (c : Nat) : Option Nat :=
  if 48 ≤ c ∧ c ≤ 57 then some (c - 48)
  else if 65 ≤ c ∧ c ≤ 70 then some (c - 55)
  else if 97 ≤ c ∧ c ≤ 102 then some (c - 87)
  else none

/-- One `%XX` escape at the head of a string: its byte and the rest. -/
def pctByte : JsString → Option (Nat × JsString)
  | '%' :: h :: l :: rest =>
    match unhex h.toNat, unhex l.toNat with
    | some a, some b => some (a * 16 + b, rest)
    | _, _ => none
  | _ => none

/-- The next `n` escapes `%XX` of a string: their bytes and the rest. -/
def pctOctets : Nat → JsString → Option (List Nat × JsString)
  | 0, s => some ([], s)
  | n + 1, s =>
    match pctByte s with
    | none => none
    | some (b, s1) =>
      match pctOctets n s1 with
      | none => none
      | some (bs, s2) => some (b :: bs, s2)

/-- The code point a byte sequence is the UTF-8 encoding of, if it is one. -/
def utf8Strict (octets : List Nat) : Option Char :=
  match utf8Decode none octets with
  | [c] => if bufferFrom [c] = octets then some c else none
  | _ => none

/-- Number of bytes announced by the first byte `b ≥ 0x80` of a sequence (its
count of leading one bits; 5 stands for five or more). -/
def leadingOnes (b : Nat) : Nat :=
  if b < 0xC0 then 1 else if b < 0xE0 then 2 else if b < 0xF0 then 3
  else if b < 0xF8 then 4 else 5

/-- `decodeURIComponent`; `none` is a thrown `URIError`.  The first argument
bounds the number of steps; the length of the string is enough. -/
def decodeURIComponentAux : Nat → JsString → Option JsString
  | _, [] => some []
  | 0, _ :: _ => none
  | fuel + 1, c :: cs =>
    if c ≠ '%' then (decodeURIComponentAux fuel cs).map (c :: ·)
    else
      match pctByte (c :: cs) with
      | none => none
      | some (b, rest) =>
        if b < 0x80 then (decodeURIComponentAux fuel rest).map (Char.ofNat b :: ·)
        else if leadingOnes b = 1 ∨ leadingOnes b > 4 then none
        else
          match pctOctets (leadingOnes b - 1) rest with
          | none => none
          | some (bs, rest1) =>
            match utf8Strict (b :: bs) with
            | none => none
            | some ch => (decodeURIComponentAux fuel rest1).map (ch :: ·)

/-- `decodeURIComponent(s)`. -/
def decodeURIComponent (s : JsString) : Option JsString :=
  decodeURIComponentAux s.length s

/-- The UTF-16 code units of one scalar value. -/
def utf16Units (c : Char) : List Nat :=
  if c.toNat < 0x10000 then [c.toNat]
  else [0xD800 + (c.toNat - 0x10000) / 1024, 0xDC00 + (c.toNat - 0x10000) % 1024]

/-- `querystring.unescapeBuffer(s)` on the code units of `s`: valid `%XX`
escapes become their byte, every other code unit is stored in a byte. -/
def unescapeBufferAux : Nat → List Nat → List Nat
  | _, [] => []
  | 0, _ :: _ => []
  | fuel + 1, c :: rest =>
    if c = 37 then
      match rest with
      | h :: l :: rest2 =>
        match unhex h with
        | none => 37 :: unescapeBufferAux fuel rest
        | some hi =>
          match unhex l with
          | none => 37 :: (h % 256) :: unescapeBufferAux fuel (l :: rest2)
          | some lo => (hi * 16 + lo) :: unescapeBufferAux fuel rest2
      | _ => 37 :: unescapeBufferAux fuel rest
    else (c % 256) :: unescapeBufferAux fuel rest

/-- `querystring.unescapeBuffer(s)`. -/
def unescapeBuffer (s : JsString) : List Nat :=
  unescapeBufferAux (s.flatMap utf16Units).length (s.flatMap utf16Units)

/-- `querystring.unescape(s)`: `decodeURIComponent`, and on a `URIError` the
lenient byte-wise decoding. -/
def qsUnescape (s : JsString) : JsString :=
  match decodeURIComponent s with
  | some r => r
  | none => bufferToString (unescapeBuffer s)

/-- A value in the object returned by `querystring.parse`: a string, or an
array of strings for a repeated key. -/
inductive QsValue where
  | str (s : JsString)
  | arr (xs : List JsString)
  deriving DecidableEq, Repr

/-- The object returned by `querystring.parse`, keys in insertion order. -/
abbrev ParsedData := List (JsString × QsValue)

/-- Property read `obj[key]`; `none` is `undefined`. -/
def getField (obj : ParsedData) (key : JsString) : Option QsValue :=
  match obj with
  | [] => none
  | (k, v) :: rest => if k = key then some v else getField rest key

/-- Property write `obj[key] = v` on an existing or new key. -/
def setField (obj : ParsedData) (key : JsString) (v : QsValue) : ParsedData :=
  match obj with
  | [] => [(key, v)]
  | (k, w) :: rest => if k = key then (k, v) :: rest else (k, w) :: setField rest key v

/-- The library's `addKeyValue`: decode the parts seen to hold an escape, then
store the value, turning a repeated key into an array. -/
def addKeyValue (obj : ParsedData) (key value : JsString) (keyEncoded valEncoded : Bool) :
    ParsedData :=
  let key := if key ≠ [] ∧ keyEncoded then qsUnescape key else key
  let value := if value ≠ [] ∧ valEncoded then qsUnescape value else value
  match getField obj key with
  | none => setField obj key (.str value)
  | some (.str cur) => setField obj key (.arr [cur, value])
  | some (.arr xs) => setField obj key (.arr (xs ++ [value]))

/-- The local variables of the scanning loop of `querystring.parse` with the
default separators `&` and `=`.  `seg` is `qs.slice(lastPos, i)`, `eqSeen` is
`eqIdx === eqLen`, and `done` records that `return obj` was executed. -/
structure QsState where
  obj : ParsedData
  key : JsString
  value : JsString
  seg : JsString
  eqSeen : Bool
  keyEncoded : Bool
  valEncoded : Bool
  encodeCheck : Nat
  pairs : Nat
  done : Bool

/-- The part of the loop body shared by key and value characters: `+` ends a
value segment with a space, and the value is watched for a `%XX` escape. -/
def qsValueChar (st : QsState) (c : Char) : QsState :=
  if c = '+' then { st with value := st.value ++ st.seg ++ [' '], seg := [] }
  else if !st.valEncoded then
    if c = '%' then { st with seg := st.seg ++ [c], encodeCheck := 1 }
    else if st.encodeCheck > 0 then
      if (unhex c.toNat).isSome then
        { st with seg := st.seg ++ [c], encodeCheck := st.encodeCheck + 1,
                  valEncoded := st.encodeCheck + 1 = 3 }
      else { st with seg := st.seg ++ [c], encodeCheck := 0 }
    else { st with seg := st.seg ++ [c] }
  else { st with seg := st.seg ++ [c] }

/-- One iteration of the scanning loop of `querystring.parse`. -/
def qsStep (st : QsState) (c : Char) : QsState :=
  if st.done then st
  else if c = '&' then
    if !st.eqSeen ∧ st.seg = [] ∧ st.key = [] then
      if st.pairs - 1 = 0 then { st with done := true }
      else { st with pairs := st.pairs - 1 }
    else
      let key := if !st.eqSeen then st.key ++ st.seg else st.key
      let value := if st.eqSeen then st.value ++ st.seg else st.value
      let obj := addKeyValue st.obj key value st.keyEncoded st.valEncoded
      if st.pairs - 1 = 0 then { st with obj := obj, done := true }
      else
        { obj := obj, key := [], value := [], seg := [], eqSeen := false,
          keyEncoded := false, valEncoded := false, encodeCheck := 0,
          pairs := st.pairs - 1, done := false }
  else if !st.eqSeen then
    if c = '=' then
      { st with key := st.key ++ st.seg, seg := [], encodeCheck := 0, eqSeen := true }
    else if !st.keyEncoded ∧ c = '%' then
      { st with seg := st.seg ++ [c], encodeCheck := 1 }
    else if !st.keyEncoded ∧ st.encodeCheck > 0 ∧ (unhex c.toNat).isSome then
      { st with seg := st.seg ++ [c], encodeCheck := st.encodeCheck + 1,
                keyEncoded := st.encodeCheck + 1 = 3 }
    else
      let st1 := if !st.keyEncoded ∧ st.encodeCheck > 0 then { st with encodeCheck := 0 } else st
      if c = '+' then { st1 with key := st1.key ++ st1.seg ++ [' '], seg := [] }
      else qsValueChar st1 c
  else qsValueChar st c

/-- The code after the loop: the leftover key or value is stored, unless the
string ended on an empty substring. -/
def qsFinish (st : QsState) : ParsedData :=
  if st.done then st.obj
  else if st.seg = [] ∧ !st.eqSeen ∧ st.key = [] then st.obj
  else
    let key := if !st.eqSeen then st.key ++ st.seg else st.key
    let value := if st.eqSeen then st.value ++ st.seg else st.value
    addKeyValue st.obj key value st.keyEncoded st.valEncoded

/-- `querystring.parse(qs)` with default separators, decoder and `maxKeys`
(1000). -/
def parse (qs : JsString) : ParsedData :=
  if qs = [] then []
  else
    qsFinish (qs.foldl qsStep
      { obj := [], key := [], value := [], seg := [], eqSeen := false, keyEncoded := false,
        valEncoded := false, encodeCheck := 0, pairs := 1000, done := false })

/-! ## `escapeHtml` -/

/-- The object literal `map` of `escapeHtml`; `none` is `undefined`. -/
def escapeMap (m : Char) : Option JsString :=
  if m = '&' then some "&amp;".toList
  else if m = '<' then some "&lt;".toList
  else if m = '>' then some "&gt;".toList
  else if m = '"' then some "&quot;".toList
  else if m = '\'' then some "&#39;".toList
  else none

/-- The character class `[&<>"']` of the regular expression in `escapeHtml`. -/
def escapeClass (c : Char) : Bool :=
  c = '&' || c = '<' || c = '>' || c = '"' || c = '\''

/-- `text.replace(re, fn)` for a global regular expression `re` made of one
character class: scanning left to right, every matching character is replaced
by the string value of `fn(match)` (`undefined` prints as `undefined`), the
others are copied. -/
def replaceClassG (cls : Char → Bool) (fn : Char → Option JsString) : JsString → JsString
  | [] => []
  | c :: cs =>
    (if cls c then (fn c).getD "undefined".toList else [c]) ++ replaceClassG cls fn cs

/-- The source's `escapeHtml(text)`. -/
def escapeHtml (text : JsString) : JsString :=
  replaceClassG escapeClass escapeMap text

/-! ## `handlePostRequest` and its listeners -/

/-- An exception thrown inside a listener. -/
inductive Thrown where
  | typeError
  deriving DecidableEq, Repr

deriving instance DecidableEq for Except

/-- One request/response exchange as the handlers see it: the response object,
whether `handlePostRequest` registered its `data`/`end`/`error` listeners on
the request, the closure variable `body`, and whether `req.destroy()` was
called. -/
structure Exchange where
  res : Res
  listening : Bool
  body : JsString
  destroyed : Bool
  deriving DecidableEq, Repr

/-- An event of the request stream; a data chunk is a buffer of bytes. -/
inductive Event where
  | dataChunk (chunk : List Nat)
  | endOfStream
  | transportError
  deriving DecidableEq, Repr

/-- The source's `handlePostRequest(pathname, req, res)` up to the registration
of the listeners. -/
def handlePostRequest (pathname : JsString) (x : Exchange) : Exchange :=
  if pathname ≠ "/submit".toList then
    { x with
      res := sendResponse x.res 404
        (generateHTML "404 Not Found".toList "<p>Page Not Found</p>".toList) }
  else
    { x with listening := true, body := [] }

/-- The `data` listener. -/
def onData (x : Exchange) (chunk : List Nat) : Exchange :=
  let body := x.body ++ bufferToString chunk
  if jsLength body > 1024 * 1024 then
    { x with
      body := body
      res := sendResponse x.res 400
        (generateHTML "400 Bad Request".toList "<p>Request too large</p>".toList)
      destroyed := true }
  else
    { x with body := body }

/-- The expression `field?.trim()` on a property of the parsed object: `undefined`
stays `undefined`, a string is trimmed, an array has no `trim` method. -/
def optionalTrim : Option QsValue → Except Thrown (Option JsString)
  | none => .ok none
  | some (.str s) => .ok (some (trim s))
  | some (.arr _) => .error .typeError

/-- The `try` block of the `end` listener: the status and page it sends, or the
exception it throws. -/
def submitResult (body : JsString) : Except Thrown (Nat × JsString) :=
  let parsedData := parse body
  match optionalTrim (getField parsedData "name".toList) with
  | .error e => .error e
  | .ok name =>
    match optionalTrim (getField parsedData "email".toList) with
    | .error e => .error e
    | .ok email =>
      match name, email with
      | some name, some email =>
        if name = [] ∨ email = [] then
          .ok (400, generateHTML "400 Bad Request".toList "<p>Invalid form data</p>".toList)
        else
          .ok (200, generateHTML "Form Submitted".toList
            ("<p>Name: ".toList ++ escapeHtml name ++ "</p>\n         <p>Email: ".toList
              ++ escapeHtml email ++ "</p>".toList))
      | _, _ =>
        .ok (400, generateHTML "400 Bad Request".toList "<p>Invalid form data</p>".toList)

/-- The `end` listener.  The runtime runs the three listeners only while no
response has been sent (see `deliver`); on a response already sent `writeHead`
would throw where this model records a further call. -/
def onEnd (x : Exchange) : Exchange :=
  match submitResult x.body with
  | .ok (status, html) => { x with res := sendResponse x.res status html }
  | .error _ =>
    { x with
      res := sendResponse x.res 500
        (generateHTML "500 Internal Server Error".toList "<p>Server Error</p>".toList) }

/-- The `error` listener. -/
def onError (x : Exchange) : Exchange :=
  { x with
    res := sendResponse x.res 400
      (generateHTML "400 Bad Request".toList "<p>Invalid request</p>".toList) }

/-- Delivery of one stream event: it runs the listener registered for it, if
any. -/
def emit (x : Exchange) : Event → Exchange
  | .dataChunk chunk => if x.listening then onData x chunk else x
  | .endOfStream => if x.listening then onEnd x else x
  | .transportError => if x.listening then onError x else x

/-! ## The request listener -/

/-- An incoming request, by the two constants the listener computes from it:
`method`, the value of `req.method.toUpperCase()`, and `pathname`, the
`pathname` of `url.parse(req.url, true)`, `none` when `url.parse` throws. -/
structure Request where
  method : JsString
  pathname : Option JsString
  deriving DecidableEq, Repr

/-- The listener passed to `http.createServer`, run on a fresh response
object.  The `catch` block is entered when `url.parse` throws, before anything
was written.  The 405 branch writes its own header object and ends the
response with the page as a string, sent as UTF-8. -/
def requestListener (req : Request) : Exchange :=
  let x : Exchange := { res := [], listening := false, body := [], destroyed := false }
  match req.pathname with
  | none =>
    if x.res = [] then
      { x with
        res := sendResponse x.res 500
          (generateHTML "500 Internal Server Error".toList "<p>Server Error</p>".toList) }
    else x
  | some pathname =>
    if req.method = "GET".toList then
      { x with res := handleGetRequest pathname x.res }
    else if req.method = "POST".toList then
      handlePostRequest pathname x
    else
      { x with
        res := x.res ++
          [{ statusCode := 405
             headers := [("Content-Type", .text "text/html; charset=utf-8"),
                         ("Allow", .text "GET, POST"),
                         ("X-Content-Type-Options", .text "nosniff")]
             body := bufferFrom
               (generateHTML "405 Method Not Allowed".toList
                 "<p>Method Not Allowed</p>".toList) }] }

/-- A whole exchange: the request listener, then the listeners run on the
stream events in order. -/
def serve (req : Request) (events : List Event) : Exchange :=
  events.foldl emit (requestListener req)

/-- The request stream of the runtime together with the exchange its listeners
act on; `closed` records that `end` or `error` was emitted. -/
structure Stream where
  exchange : Exchange
  closed : Bool
  deriving DecidableEq, Repr

/-- Delivery of one event by the runtime: a readable stream emits no `data`,
`end` or `error` once it has emitted `end` or `error` or was destroyed;
otherwise the listener registered for the event runs, and `end` and `error`
close the stream. -/
def deliver (s : Stream) (e : Event) : Stream :=
  if s.closed || s.exchange.destroyed then s
  else
    match e with
    | .dataChunk chunk => { exchange := emit s.exchange (.dataChunk chunk), closed := false }
    | .endOfStream => { exchange := emit s.exchange .endOfStream, closed := true }
    | .transportError => { exchange := emit s.exchange .transportError, closed := true }

/-- A whole exchange as the server lives it: the request listener, then the
stream events as the runtime delivers them. -/
def receive (req : Request) (events : List Event) : Stream :=
  events.foldl deliver { exchange := requestListener req, closed := false }

/-! ## Auxiliary scanner -/

/-- Scanner for the two-character sequence `<s`; `prev` tells whether the
character before the list is `<`. -/
def hasLtS (prev : Bool) : JsString → Bool
  | [] => false
  | c :: cs => (prev && c == 's') || hasLtS (c == '<') cs

/-- Whether a list, or the character before it when it is empty, ends in `<`. -/
def endsLt (prev : Bool) : JsString → Bool
  | [] => prev
  | c :: cs => endsLt (c == '<') cs

/-! ## Theorems -/

/-! ### The step bounds of the two decoders are never reached -/

theorem pctByte_length (s rest : JsString) (b : Nat) (h : pctByte s = some (b, rest)) :
    rest.length + 3 = s.length := by
  unfold pctByte at h
  split at h
  · split at h
    · cases h; simp
    · cases h
  · cases h

theorem pctOctets_length (n : Nat) (s rest : JsString) (bs : List Nat)
    (h : pctOctets n s = some (bs, rest)) : rest.length ≤ s.length := by
  induction n generalizing s bs with
  | zero => unfold pctOctets at h; cases h; exact Nat.le_refl _
  | succ n ih =>
    unfold pctOctets at h
    cases h1 : pctByte s with
    | none => rw [h1] at h; cases h
    | some p =>
      obtain ⟨b, s1⟩ := p
      rw [h1] at h
      dsimp only at h
      cases h2 : pctOctets n s1 with
      | none => rw [h2] at h; cases h
      | some q =>
        obtain ⟨bs2, s2⟩ := q
        rw [h2] at h
        cases h
        have := ih s1 bs2 h2
        have := pctByte_length s s1 b h1
        omega

/-- The step bound of `decodeURIComponentAux` is never reached when it is at
least the length of the string. -/
theorem decodeURIComponentAux_fuel (fuel1 fuel2 : Nat) (s : JsString)
    (h1 : s.length ≤ fuel1) (h2 : s.length ≤ fuel2) :
    decodeURIComponentAux fuel1 s = decodeURIComponentAux fuel2 s := by
  induction fuel1 generalizing fuel2 s with
  | zero =>
    cases s with
    | nil => cases fuel2 <;> rfl
    | cons c cs => simp at h1
  | succ f1 ih =>
    cases s with
    | nil => cases fuel2 <;> rfl
    | cons c cs =>
      cases fuel2 with
      | zero => simp at h2
      | succ f2 =>
        simp only [List.length_cons] at h1 h2
        unfold decodeURIComponentAux
        split
        · rw [ih f2 cs (by omega) (by omega)]
        · cases hb : pctByte (c :: cs) with
          | none => rfl
          | some p =>
            obtain ⟨b, rest⟩ := p
            have hl := pctByte_length _ _ _ hb
            simp only [List.length_cons] at hl
            dsimp only
            split
            · rw [ih f2 rest (by omega) (by omega)]
            · split
              · rfl
              · cases ho : pctOctets (leadingOnes b - 1) rest with
                | none => rfl
                | some q =>
                  obtain ⟨bs, rest1⟩ := q
                  have hl2 := pctOctets_length _ _ _ _ ho
                  dsimp only
                  cases utf8Strict (b :: bs) with
                  | none => rfl
                  | some ch =>
                    dsimp only
                    rw [ih f2 rest1 (by omega) (by omega)]

/-- The step bound of `unescapeBufferAux` is never reached when it is at least
the number of code units. -/
theorem unescapeBufferAux_fuel (fuel1 fuel2 : Nat) (s : List Nat)
    (h1 : s.length ≤ fuel1) (h2 : s.length ≤ fuel2) :
    unescapeBufferAux fuel1 s = unescapeBufferAux fuel2 s := by
  induction fuel1 generalizing fuel2 s with
  | zero =>
    cases s with
    | nil => cases fuel2 <;> rfl
    | cons c cs => simp at h1
  | succ f1 ih =>
    cases s with
    | nil => cases fuel2 <;> rfl
    | cons c rest =>
      cases fuel2 with
      | zero => simp at h2
      | succ f2 =>
        simp only [List.length_cons] at h1 h2
        unfold unescapeBufferAux
        split
        · cases rest with
          | nil =>
            dsimp only
            rw [ih f2 [] (Nat.zero_le _) (Nat.zero_le _)]
          | cons h t =>
            cases t with
            | nil =>
              dsimp only
              rw [ih f2 [h] (by simpa using h1) (by simpa using h2)]
            | cons l rest2 =>
              simp only [List.length_cons] at h1 h2
              dsimp only
              cases unhex h with
              | none =>
                dsimp only
                rw [ih f2 (h :: l :: rest2) (by simp; omega) (by simp; omega)]
              | some hi =>
                dsimp only
                cases unhex l with
                | none =>
                  dsimp only
                  rw [ih f2 (l :: rest2) (by simp; omega) (by simp; omega)]
                | some lo =>
                  dsimp only
                  rw [ih f2 rest2 (by omega) (by omega)]
        · rw [ih f2 rest (by omega) (by omega)]

/-! ### Pages, listeners and the request listener -/

theorem title_infix_generateHTML (title content : JsString) :
    title <:+: generateHTML title content :=
  ⟨"<!DOCTYPE html>\n<html lang=\"en\">\n  <head>\n    <meta charset=\"UTF-8\" />\n    <title>".toList,
    "</title>\n  </head>\n  <body>\n    <h1>".toList ++ title ++ "</h1>\n    ".toList
      ++ content ++ "\n  </body>\n</html>".toList,
    by simp only [generateHTML, List.append_assoc]⟩

theorem content_infix_generateHTML (title content : JsString) :
    content <:+: generateHTML title content :=
  ⟨_, "\n  </body>\n</html>".toList, rfl⟩

theorem handleGetRequest_other (pathname : JsString) (res : Res)
    (h1 : pathname ≠ "/".toList) (h2 : pathname ≠ "/about".toList)
    (h3 : pathname ≠ "/contact".toList) :
    handleGetRequest pathname res = sendResponse res 404
      (generateHTML "404 Not Found".toList "<p>Page Not Found</p>".toList) := by
  unfold handleGetRequest
  rw [if_neg h1, if_neg h2, if_neg h3]

theorem requestListener_get (method pathname : JsString)
    (h : method = "GET".toList) :
    requestListener { method := method, pathname := some pathname } =
      { res := handleGetRequest pathname [], listening := false, body := [],
        destroyed := false } := by
  show (if method = "GET".toList then _ else _) = _
  rw [if_pos h]

theorem requestListener_post (method pathname : JsString)
    (h : method = "POST".toList) :
    requestListener { method := method, pathname := some pathname } =
      handlePostRequest pathname
        { res := [], listening := false, body := [], destroyed := false } := by
  show (if method = "GET".toList then _ else _) = _
  rw [h, if_neg (by decide), if_pos rfl]

/-- Events are ignored when no listener is registered. -/
theorem foldl_emit_not_listening (events : List Event) (x : Exchange)
    (h : x.listening = false) : events.foldl emit x = x := by
  induction events with
  | nil => rfl
  | cons e es ih =>
    have he : emit x e = x := by cases e <;> simp [emit, h]
    rw [List.foldl_cons, he, ih]

theorem sendResponse_eq_append (res : Res) (status : Nat) (html : JsString) :
    sendResponse res status html = res ++ sendResponse [] status html := rfl

theorem submitResult_status (body : JsString) (status : Nat) (html : JsString)
    (h : submitResult body = .ok (status, html)) : status = 200 ∨ status = 400 := by
  unfold submitResult at h
  dsimp only at h
  cases h1 : optionalTrim (getField (parse body) "name".toList) with
  | error e => rw [h1] at h; cases h
  | ok name =>
    rw [h1] at h
    dsimp only at h
    cases h2 : optionalTrim (getField (parse body) "email".toList) with
    | error e => rw [h2] at h; cases h
    | ok email =>
      rw [h2] at h
      dsimp only at h
      cases name with
      | none => cases h; exact Or.inr rfl
      | some name =>
        cases email with
        | none => cases h; exact Or.inr rfl
        | some email =>
          dsimp only at h
          by_cases hv : name = [] ∨ email = []
          · rw [if_pos hv] at h; cases h; exact Or.inr rfl
          · rw [if_neg hv] at h; cases h; exact Or.inl rfl

theorem onData_res (x : Exchange) (chunk : List Nat) :
    (onData x chunk).res =
      if jsLength (x.body ++ bufferToString chunk) > 1024 * 1024 then
        sendResponse x.res 400
          (generateHTML "400 Bad Request".toList "<p>Request too large</p>".toList)
      else x.res := by
  unfold onData
  dsimp only
  split <;> rfl

/-- A listener leaves the response object alone or sends one page through
`sendResponse`, with status 200, 400 or 500. -/
theorem emit_res (x : Exchange) (e : Event) :
    (emit x e).res = x.res ∨ ∃ status html, (status = 200 ∨ status = 400 ∨ status = 500) ∧
      (emit x e).res = sendResponse x.res status html := by
  by_cases hl : x.listening = true
  · cases e with
    | dataChunk chunk =>
      have he : emit x (.dataChunk chunk) = onData x chunk := if_pos hl
      rw [he, onData_res]
      split
      · exact Or.inr ⟨400, _, Or.inr (Or.inl rfl), rfl⟩
      · exact Or.inl rfl
    | endOfStream =>
      have he : emit x .endOfStream = onEnd x := if_pos hl
      rw [he]
      unfold onEnd
      cases h : submitResult x.body with
      | error e => exact Or.inr ⟨500, _, Or.inr (Or.inr rfl), rfl⟩
      | ok p =>
        obtain ⟨status, html⟩ := p
        rcases submitResult_status _ _ _ h with rfl | rfl
        · exact Or.inr ⟨200, html, Or.inl rfl, rfl⟩
        · exact Or.inr ⟨400, html, Or.inr (Or.inl rfl), rfl⟩
    | transportError =>
      have he : emit x .transportError = onError x := if_pos hl
      rw [he]
      exact Or.inr ⟨400, _, Or.inr (Or.inl rfl), rfl⟩
  · left
    cases e <;> exact congrArg Exchange.res (if_neg hl)

/-- Every response added while the stream events are handled is a page sent
through `sendResponse` with status 200, 400 or 500. -/
theorem foldl_emit_res (events : List Event) (x : Exchange) (r : Response)
    (hr : r ∈ (events.foldl emit x).res) :
    r ∈ x.res ∨ ∃ status html, (status = 200 ∨ status = 400 ∨ status = 500) ∧
      sendResponse [] status html = [r] := by
  induction events generalizing x with
  | nil => exact Or.inl hr
  | cons e es ih =>
    rcases ih (emit x e) hr with h | h
    · rcases emit_res x e with he | ⟨status, html, hs, he⟩
      · exact Or.inl (he ▸ h)
      · rw [he, sendResponse_eq_append, List.mem_append] at h
        rcases h with h | h
        · exact Or.inl h
        · refine Or.inr ⟨status, html, hs, ?_⟩
          change r ∈ [_] at h
          rw [List.mem_singleton] at h
          rw [h]; rfl
    · exact Or.inr h

/-- The responses of a GET or POST exchange are pages sent through
`sendResponse` with status 200, 400, 404 or 500. -/
theorem serve_res_sent (method pathname : JsString) (events : List Event) (r : Response)
    (hm : method = "GET".toList ∨ method = "POST".toList)
    (hr : r ∈ (serve { method := method, pathname := some pathname } events).res) :
    ∃ status html, (status = 200 ∨ status = 400 ∨ status = 404 ∨ status = 500) ∧
      sendResponse [] status html = [r] := by
  unfold serve at hr
  rcases foldl_emit_res _ _ r hr with h | ⟨status, html, hs, h⟩
  · rcases hm with hm | hm
    · rw [requestListener_get _ _ hm] at h
      change r ∈ handleGetRequest pathname [] at h
      unfold handleGetRequest at h
      split at h
      · exact ⟨200, _, Or.inl rfl, by
          change r ∈ [_] at h; rw [List.mem_singleton] at h; rw [h]; rfl⟩
      · split at h
        · exact ⟨200, _, Or.inl rfl, by
            change r ∈ [_] at h; rw [List.mem_singleton] at h; rw [h]; rfl⟩
        · split at h
          · exact ⟨200, _, Or.inl rfl, by
              change r ∈ [_] at h; rw [List.mem_singleton] at h; rw [h]; rfl⟩
          · exact ⟨404, _, Or.inr (Or.inr (Or.inl rfl)), by
              change r ∈ [_] at h; rw [List.mem_singleton] at h; rw [h]; rfl⟩
    · rw [requestListener_post _ _ hm] at h
      unfold handlePostRequest at h
      split at h
      · exact ⟨404, _, Or.inr (Or.inr (Or.inl rfl)), by
          change r ∈ [_] at h; rw [List.mem_singleton] at h; rw [h]; rfl⟩
      · exact absurd h (List.not_mem_nil r)
  · rcases hs with hs | hs | hs
    · exact ⟨status, html, Or.inl hs, h⟩
    · exact ⟨status, html, Or.inr (Or.inl hs), h⟩
    · exact ⟨status, html, Or.inr (Or.inr (Or.inr hs)), h⟩

theorem utf8EncodeChar_length (c : Char) : (utf8EncodeChar c).length = c.utf8Size := by
  unfold Char.utf8Size utf8EncodeChar
  have k1 : (c.val ≤ UInt32.ofNatCore 127 Char.utf8Size.proof_1) ↔ c.toNat < 0x80 := by
    show c.val.toNat ≤ 127 ↔ c.val.toNat < 128
    omega
  have k2 : (c.val ≤ UInt32.ofNatCore 2047 Char.utf8Size.proof_2) ↔ c.toNat < 0x800 := by
    show c.val.toNat ≤ 2047 ↔ c.val.toNat < 2048
    omega
  have k3 : (c.val ≤ UInt32.ofNatCore 65535 Char.utf8Size.proof_3) ↔ c.toNat < 0x10000 := by
    show c.val.toNat ≤ 65535 ↔ c.val.toNat < 65536
    omega
  simp only [k1, k2, k3]
  split_ifs <;> rfl

/-- The buffer made from a string has as many bytes as the string's UTF-8
encoding, in the sense of `String.utf8ByteSize`. -/
theorem bufferFrom_length (s : JsString) :
    (bufferFrom s).length = (String.mk s).utf8ByteSize := by
  induction s with
  | nil => rfl
  | cons c cs ih =>
    have h1 : bufferFrom (c :: cs) = utf8EncodeChar c ++ bufferFrom cs := rfl
    have h2 : (String.mk (c :: cs)).utf8ByteSize = (String.mk cs).utf8ByteSize + c.utf8Size := rfl
    rw [h1, h2, List.length_append, ih, utf8EncodeChar_length, Nat.add_comm]

/-- Every response of an exchange is a page sent through `sendResponse` with
status 200, 400, 404 or 500, or the 405 response of the request listener. -/
theorem serve_res_cases (req : Request) (events : List Event) (r : Response)
    (hr : r ∈ (serve req events).res) :
    (∃ status html, (status = 200 ∨ status = 400 ∨ status = 404 ∨ status = 500) ∧
        sendResponse [] status html = [r])
      ∨ r = { statusCode := 405
              headers := [("Content-Type", .text "text/html; charset=utf-8"),
                          ("Allow", .text "GET, POST"),
                          ("X-Content-Type-Options", .text "nosniff")]
              body := bufferFrom (generateHTML "405 Method Not Allowed".toList
                "<p>Method Not Allowed</p>".toList) } := by
  obtain ⟨method, pn⟩ := req
  cases pn with
  | none =>
    unfold serve at hr
    rw [foldl_emit_not_listening _ _ rfl] at hr
    change r ∈ [_] at hr
    rw [List.mem_singleton] at hr
    exact Or.inl ⟨500, _, Or.inr (Or.inr (Or.inr rfl)), by rw [hr]; rfl⟩
  | some pathname =>
    by_cases h1 : method = "GET".toList
    · exact Or.inl (serve_res_sent method pathname events r (Or.inl h1) hr)
    · by_cases h2 : method = "POST".toList
      · exact Or.inl (serve_res_sent method pathname events r (Or.inr h2) hr)
      · right
        have hx : requestListener { method := method, pathname := some pathname } =
            { res := [{ statusCode := 405
                        headers := [("Content-Type", .text "text/html; charset=utf-8"),
                                    ("Allow", .text "GET, POST"),
                                    ("X-Content-Type-Options", .text "nosniff")]
                        body := bufferFrom (generateHTML "405 Method Not Allowed".toList
                          "<p>Method Not Allowed</p>".toList) }]
              listening := false
              body := []
              destroyed := false } := by
          show (if method = "GET".toList then _ else _) = _
          rw [if_neg h1, if_neg h2]
          rfl
        unfold serve at hr
        rw [hx, foldl_emit_not_listening _ _ rfl] at hr
        change r ∈ [_] at hr
        rwa [List.mem_singleton] at hr

/-! ### Long bodies: a repeated ASCII letter and a repeated two-byte letter -/

theorem bufferToString_replicate_ascii (n : Nat) :
    bufferToString (List.replicate n 97) = List.replicate n 'a' := by
  unfold bufferToString
  induction n with
  | zero => rfl
  | succ n ih =>
    rw [List.replicate_succ, List.replicate_succ, ← ih]
    rfl

theorem bufferToString_replicate_two_byte (n : Nat) :
    bufferToString (List.replicate n [0xC3, 0xA9]).flatten = List.replicate n (Char.ofNat 0xE9) := by
  unfold bufferToString
  induction n with
  | zero => rfl
  | succ n ih =>
    rw [List.replicate_succ, List.replicate_succ, ← ih]
    rfl

theorem length_flatten_replicate_two_byte (n : Nat) :
    (List.replicate n [0xC3, 0xA9]).flatten.length = 2 * n := by
  induction n with
  | zero => rfl
  | succ n ih =>
    rw [List.replicate_succ, List.flatten_cons, List.length_append, ih]
    simp only [List.length_cons, List.length_nil]
    omega

theorem jsLength_replicate (n : Nat) (c : Char) (hc : c.toNat < 0x10000) :
    jsLength (List.replicate n c) = n := by
  unfold jsLength
  induction n with
  | zero => rfl
  | succ n ih =>
    rw [List.replicate_succ, List.map_cons, List.sum_cons, ih, utf16Size, if_pos hc]
    omega

/-- A letter that is none of `&`, `=`, `+`, `%` and is scanned outside an
escape joins the pending segment. -/
theorem foldl_qsStep_replicate (n : Nat) (obj : ParsedData) (key value seg : JsString)
    (pairs : Nat) :
    (List.replicate n (Char.ofNat 0xE9)).foldl qsStep
        { obj := obj, key := key, value := value, seg := seg, eqSeen := false,
          keyEncoded := false, valEncoded := false, encodeCheck := 0, pairs := pairs,
          done := false }
      = { obj := obj, key := key, value := value,
          seg := seg ++ List.replicate n (Char.ofNat 0xE9), eqSeen := false,
          keyEncoded := false, valEncoded := false, encodeCheck := 0, pairs := pairs,
          done := false } := by
  induction n generalizing seg with
  | zero => simp
  | succ n ih =>
    rw [List.replicate_succ, List.foldl_cons]
    have hstep :
        qsStep
            { obj := obj, key := key, value := value, seg := seg, eqSeen := false,
              keyEncoded := false, valEncoded := false, encodeCheck := 0, pairs := pairs,
              done := false }
            (Char.ofNat 0xE9)
          = { obj := obj, key := key, value := value, seg := seg ++ [Char.ofNat 0xE9],
              eqSeen := false, keyEncoded := false, valEncoded := false, encodeCheck := 0,
              pairs := pairs, done := false } := rfl
    rw [hstep, ih, List.append_assoc]
    rfl

theorem parse_replicate_two_byte (n : Nat) :
    parse (List.replicate (n + 1) (Char.ofNat 0xE9))
      = [(List.replicate (n + 1) (Char.ofNat 0xE9), .str [])] := by
  unfold parse
  rw [if_neg (by rw [List.replicate_succ]; exact List.cons_ne_nil _ _), foldl_qsStep_replicate]
  rw [List.nil_append, List.replicate_succ]
  rfl

theorem requestListener_submit :
    requestListener { method := "POST".toList, pathname := some "/submit".toList }
      = { res := [], listening := true, body := [], destroyed := false } := by
  decide

theorem onData_small (x : Exchange) (chunk : List Nat)
    (h : jsLength (x.body ++ bufferToString chunk) ≤ 1024 * 1024) :
    onData x chunk = { x with body := x.body ++ bufferToString chunk } := by
  unfold onData
  dsimp only
  rw [if_neg (by omega)]

theorem onData_large (x : Exchange) (chunk : List Nat)
    (h : jsLength (x.body ++ bufferToString chunk) > 1024 * 1024) :
    onData x chunk =
      { x with
        body := x.body ++ bufferToString chunk
        res := sendResponse x.res 400
          (generateHTML "400 Bad Request".toList "<p>Request too large</p>".toList)
        destroyed := true } := by
  unfold onData
  dsimp only
  rw [if_pos h]

/-- Each delivered event adds at most one response. -/
theorem emit_res_length (x : Exchange) (e : Event) :
    (emit x e).res.length ≤ x.res.length + 1 := by
  rcases emit_res x e with h | ⟨status, html, _, h⟩
  · rw [h]; omega
  · rw [h, sendResponse_eq_append, List.length_append]
    exact Nat.le_refl _

theorem emit_dataChunk (x : Exchange) (chunk : List Nat) (hl : x.listening = true) :
    emit x (.dataChunk chunk) = onData x chunk := if_pos hl

/-- A body of `n ≤ 1,048,576` two-byte letters in one chunk is buffered and not
answered. -/
theorem serve_two_byte_data (n : Nat) (hn : n ≤ 1024 * 1024) :
    serve { method := "POST".toList, pathname := some "/submit".toList }
        [.dataChunk (List.replicate n [0xC3, 0xA9]).flatten]
      = { res := [], listening := true, body := List.replicate n (Char.ofNat 0xE9),
          destroyed := false } := by
  have hsmall : jsLength ([] ++ bufferToString (List.replicate n [0xC3, 0xA9]).flatten)
      ≤ 1024 * 1024 := by
    rw [List.nil_append, bufferToString_replicate_two_byte]
    rw [jsLength_replicate n (Char.ofNat 0xE9) (by decide)]
    exact hn
  unfold serve
  rw [requestListener_submit, List.foldl_cons, List.foldl_nil]
  show onData _ _ = _
  rw [onData_small _ _ hsmall, List.nil_append, bufferToString_replicate_two_byte]

theorem getField_parse_two_byte (n : Nat) (key : JsString)
    (hk : List.replicate (n + 1) (Char.ofNat 0xE9) ≠ key) :
    getField (parse (List.replicate (n + 1) (Char.ofNat 0xE9))) key = none := by
  rw [parse_replicate_two_byte n]
  unfold getField
  rw [if_neg hk]
  rfl

theorem replicate_two_byte_ne (n : Nat) (key : JsString) (hk : key.head? = some 'n' ∨
    key.head? = some 'e') : List.replicate (n + 1) (Char.ofNat 0xE9) ≠ key := by
  intro h
  rw [← h, List.replicate_succ, List.head?_cons, Option.some.injEq] at hk
  rcases hk with hk | hk <;> exact absurd hk (by decide)

/-- At end-of-stream such a body, which holds neither field, is answered with
the page `Invalid form data`. -/
theorem serve_two_byte_end (n : Nat) (hn : n + 1 ≤ 1024 * 1024) :
    (serve { method := "POST".toList, pathname := some "/submit".toList }
        [.dataChunk (List.replicate (n + 1) [0xC3, 0xA9]).flatten, .endOfStream]).res
      = sendResponse [] 400
          (generateHTML "400 Bad Request".toList "<p>Invalid form data</p>".toList) := by
  have hserve : serve { method := "POST".toList, pathname := some "/submit".toList }
      [.dataChunk (List.replicate (n + 1) [0xC3, 0xA9]).flatten, .endOfStream]
      = emit (serve { method := "POST".toList, pathname := some "/submit".toList }
          [.dataChunk (List.replicate (n + 1) [0xC3, 0xA9]).flatten]) .endOfStream := rfl
  rw [hserve, serve_two_byte_data (n + 1) hn]
  show (onEnd _).res = _
  unfold onEnd submitResult
  dsimp only
  rw [getField_parse_two_byte n "name".toList (replicate_two_byte_ne n _ (Or.inl rfl)),
    getField_parse_two_byte n "email".toList (replicate_two_byte_ne n _ (Or.inr rfl))]
  rfl

/-! ### Events as the runtime delivers them -/

theorem emit_not_listening (x : Exchange) (e : Event) (h : x.listening = false) :
    emit x e = x := by
  cases e <;> simp [emit, h]

/-- A data chunk that makes the listener answer also makes it destroy the
request. -/
theorem onData_res_destroyed (x : Exchange) (chunk : List Nat) (hx : x.res = [])
    (h : (onData x chunk).res ≠ []) : (onData x chunk).destroyed = true := by
  by_cases hlen : jsLength (x.body ++ bufferToString chunk) > 1024 * 1024
  · rw [onData_large x chunk hlen]
  · rw [onData_small x chunk (by omega)] at h
    exact absurd hx h

/-- Delivery keeps: at most one response was sent, and once one was sent the
stream is closed or destroyed, or no listener is registered. -/
theorem deliver_invariant (s : Stream) (e : Event)
    (h1 : s.exchange.res.length ≤ 1)
    (h2 : s.exchange.res ≠ [] →
      s.exchange.listening = false ∨ s.closed = true ∨ s.exchange.destroyed = true) :
    (deliver s e).exchange.res.length ≤ 1
      ∧ ((deliver s e).exchange.res ≠ [] →
          (deliver s e).exchange.listening = false ∨ (deliver s e).closed = true
            ∨ (deliver s e).exchange.destroyed = true) := by
  unfold deliver
  by_cases hc : (s.closed || s.exchange.destroyed) = true
  · rw [if_pos hc]
    exact ⟨h1, h2⟩
  · rw [if_neg hc]
    rw [Bool.or_eq_true, not_or] at hc
    by_cases hl : s.exchange.listening = true
    · have hres : s.exchange.res = [] := by
        by_contra hne
        rcases h2 hne with h | h | h
        · rw [hl] at h; cases h
        · exact hc.1 h
        · exact hc.2 h
      have hlen : ∀ e, (emit s.exchange e).res.length ≤ 1 := by
        intro e
        have := emit_res_length s.exchange e
        rw [hres] at this
        exact this
      cases e with
      | dataChunk chunk =>
        refine ⟨hlen _, fun hne => Or.inr (Or.inr ?_)⟩
        dsimp only at hne ⊢
        rw [emit_dataChunk _ _ hl] at hne ⊢
        exact onData_res_destroyed _ _ hres hne
      | endOfStream => exact ⟨hlen _, fun _ => Or.inr (Or.inl rfl)⟩
      | transportError => exact ⟨hlen _, fun _ => Or.inr (Or.inl rfl)⟩
    · have hl : s.exchange.listening = false := by simpa using hl
      cases e <;> dsimp only <;> rw [emit_not_listening _ _ hl] <;>
        exact ⟨h1, fun _ => Or.inl hl⟩

theorem receive_append (req : Request) (events : List Event) (e : Event) :
    receive req (events ++ [e]) = deliver (receive req events) e := by
  unfold receive
  rw [List.foldl_append]
  rfl

theorem foldl_deliver_invariant (events : List Event) (s : Stream)
    (h1 : s.exchange.res.length ≤ 1)
    (h2 : s.exchange.res ≠ [] →
      s.exchange.listening = false ∨ s.closed = true ∨ s.exchange.destroyed = true) :
    (events.foldl deliver s).exchange.res.length ≤ 1
      ∧ ((events.foldl deliver s).exchange.res ≠ [] →
          (events.foldl deliver s).exchange.listening = false
            ∨ (events.foldl deliver s).closed = true
            ∨ (events.foldl deliver s).exchange.destroyed = true) := by
  induction events generalizing s with
  | nil => exact ⟨h1, h2⟩
  | cons e es ih =>
    have h := deliver_invariant s e h1 h2
    exact ih (deliver s e) h.1 h.2

/-- An event changes the exchange only when no response has been sent. -/
theorem deliver_changes_unsent (s : Stream) (e : Event)
    (h2 : s.exchange.res ≠ [] →
      s.exchange.listening = false ∨ s.closed = true ∨ s.exchange.destroyed = true)
    (hne : (deliver s e).exchange ≠ s.exchange) : s.exchange.res = [] := by
  by_contra hres
  apply hne
  unfold deliver
  by_cases hc : (s.closed || s.exchange.destroyed) = true
  · rw [if_pos hc]
  · rw [if_neg hc]
    rw [Bool.or_eq_true, not_or] at hc
    rcases h2 hres with h | h | h
    · cases e <;> dsimp only <;> exact emit_not_listening _ _ h
    · exact absurd h hc.1
    · exact absurd h hc.2

theorem foldl_deliver_destroyed (events : List Event) (s : Stream)
    (h : s.exchange.destroyed = true) : events.foldl deliver s = s := by
  induction events with
  | nil => rfl
  | cons e es ih =>
    have he : deliver s e = s := by
      unfold deliver
      rw [if_pos (by rw [h, Bool.or_true])]
    rw [List.foldl_cons, he, ih]

/-- After a first chunk over the limit the request is destroyed and answered
once, whatever events follow. -/
theorem receive_ascii_overflow (n : Nat) (hn : n > 1024 * 1024) (rest : List Event) :
    (receive { method := "POST".toList, pathname := some "/submit".toList }
        (.dataChunk (List.replicate n 97) :: rest)).exchange.res.map (·.statusCode)
      = [400] := by
  have h1 : jsLength ([] ++ bufferToString (List.replicate n 97)) > 1024 * 1024 := by
    rw [List.nil_append, bufferToString_replicate_ascii]
    rw [jsLength_replicate n 'a' (by decide)]
    exact hn
  have hd : deliver
      { exchange := { res := [], listening := true, body := [], destroyed := false },
        closed := false } (.dataChunk (List.replicate n 97))
      = { exchange := onData { res := [], listening := true, body := [], destroyed := false }
            (List.replicate n 97),
          closed := false } := rfl
  unfold receive
  rw [requestListener_submit, List.foldl_cons, hd, onData_large _ _ h1,
    foldl_deliver_destroyed _ _ rfl]
  rfl

theorem optionalTrim_str (v : Option QsValue) (hv : ∀ xs, v ≠ some (.arr xs)) :
    optionalTrim v = .ok (v.map fun w => match w with
      | .str s => trim s
      | .arr _ => []) := by
  cases v with
  | none => rfl
  | some w =>
    cases w with
    | str s => rfl
    | arr xs => exact absurd rfl (hv xs)

/-! ### The escaped fields cannot open a `<script>` tag -/

theorem hasLtS_append (p : Bool) (a b : JsString) :
    hasLtS p (a ++ b) = (hasLtS p a || hasLtS (endsLt p a) b) := by
  induction a generalizing p with
  | nil => simp [hasLtS, endsLt]
  | cons c cs ih => simp [hasLtS, endsLt, ih, Bool.or_assoc]

theorem endsLt_append (p : Bool) (a b : JsString) :
    endsLt p (a ++ b) = endsLt (endsLt p a) b := by
  induction a generalizing p with
  | nil => rfl
  | cons c cs ih => simp [endsLt, ih]

theorem hasLtS_of_infix (l : JsString) (h : "<script>".toList <:+: l) (p : Bool) :
    hasLtS p l = true := by
  obtain ⟨a, b, rfl⟩ := h
  rw [hasLtS_append, hasLtS_append, Bool.or_eq_true, Bool.or_eq_true]
  left; right
  cases endsLt p a <;> rfl

theorem hasLtS_of_no_lt (e : JsString) (h : ∀ c ∈ e, c ≠ '<') :
    hasLtS false e = false ∧ endsLt false e = false := by
  induction e with
  | nil => exact ⟨rfl, rfl⟩
  | cons c cs ih =>
    have hc : (c == '<') = false := by
      rw [beq_eq_false_iff_ne]
      exact h c (List.mem_cons_self _ _)
    have := ih (fun d hd => h d (List.mem_cons_of_mem _ hd))
    simp only [hasLtS, endsLt, hc, Bool.false_and, Bool.false_or]
    exact this

/-- A text without `<`, placed after a text that neither holds `<s` nor ends
in `<`, adds no `<s`: only what follows it can. -/
theorem hasLtS_sandwich (a e b : JsString) (ha : hasLtS false a = false)
    (hae : endsLt false a = false) (he : ∀ c ∈ e, c ≠ '<') :
    hasLtS false (a ++ (e ++ b)) = hasLtS false b := by
  rw [hasLtS_append, hasLtS_append, ha, hae, (hasLtS_of_no_lt e he).1, (hasLtS_of_no_lt e he).2]
  rfl

theorem escapeHtml_cons (c : Char) (cs : JsString) :
    escapeHtml (c :: cs)
      = (if escapeClass c then (escapeMap c).getD "undefined".toList else [c])
          ++ escapeHtml cs := rfl

/-- The output of `escapeHtml` holds none of `<`, `>`, the double quote and
the apostrophe. -/
theorem escapeHtml_chars (s : JsString) :
    ∀ c ∈ escapeHtml s, c ≠ '<' ∧ c ≠ '>' ∧ c ≠ '"' ∧ c ≠ '\'' := by
  induction s with
  | nil => intro c hc; cases hc
  | cons d ds ih =>
    intro c hc
    rw [escapeHtml_cons, List.mem_append] at hc
    rcases hc with hc | hc
    · by_cases h1 : d = '&'
      · subst h1; revert c; decide
      by_cases h2 : d = '<'
      · subst h2; revert c; decide
      by_cases h3 : d = '>'
      · subst h3; revert c; decide
      by_cases h4 : d = '"'
      · subst h4; revert c; decide
      by_cases h5 : d = '\''
      · subst h5; revert c; decide
      have hcls : escapeClass d = false := by simp [escapeClass, h1, h2, h3, h4, h5]
      rw [hcls] at hc
      simp only [Bool.false_eq_true, if_false, List.mem_singleton] at hc
      subst hc
      exact ⟨h2, h3, h4, h5⟩
    · exact ih c hc

/-- The page sent for an accepted form holds no `<script>`. -/
theorem success_page_no_script (name email : JsString) :
    ¬ "<script>".toList <:+: generateHTML "Form Submitted".toList
        ("<p>Name: ".toList ++ escapeHtml name ++ "</p>\n         <p>Email: ".toList
          ++ escapeHtml email ++ "</p>".toList) := by
  intro h
  have hs := hasLtS_of_infix _ h false
  have hshape : generateHTML "Form Submitted".toList
        ("<p>Name: ".toList ++ escapeHtml name ++ "</p>\n         <p>Email: ".toList
          ++ escapeHtml email ++ "</p>".toList)
      = ("<!DOCTYPE html>\n<html lang=\"en\">\n  <head>\n    <meta charset=\"UTF-8\" />\n".toList
          ++ "    <title>Form Submitted</title>\n  </head>\n  <body>\n".toList
          ++ "    <h1>Form Submitted</h1>\n    <p>Name: ".toList)
          ++ (escapeHtml name ++ ("</p>\n         <p>Email: ".toList
            ++ (escapeHtml email ++ "</p>\n  </body>\n</html>".toList))) := by
    simp only [generateHTML, List.append_assoc]
    rfl
  rw [hshape, hasLtS_sandwich _ _ _ (by decide) (by decide)
      (fun c hc => (escapeHtml_chars name c hc).1),
    hasLtS_sandwich _ _ _ (by decide) (by decide)
      (fun c hc => (escapeHtml_chars email c hc).1)] at hs
  exact absurd hs (by decide)

/-- C1: for every string `s`, `escapeHtml s` is the left-to-right concatenation,
over the characters `c` of `s`, of `&amp;` for `&`, `&lt;` for `<`, `&gt;` for
`>`, `&quot;` for the double quote, `&#39;` for the apostrophe, and `c` itself
otherwise. -/
theorem escapeHtml_eq_flatMap (s : JsString) :
    escapeHtml s = s.flatMap (fun c =>
      if c = '&' then "&amp;".toList
      else if c = '<' then "&lt;".toList
      else if c = '>' then "&gt;".toList
      else if c = '"' then "&quot;".toList
      else if c = '\'' then "&#39;".toList
      else [c]) := by
  induction s with
  | nil => rfl
  | cons c cs ih =>
    unfold escapeHtml at ih ⊢
    rw [replaceClassG, ih, List.flatMap_cons]
    congr 1
    by_cases h1 : c = '&'
    · subst h1; rfl
    by_cases h2 : c = '<'
    · subst h2; rfl
    by_cases h3 : c = '>'
    · subst h3; rfl
    by_cases h4 : c = '"'
    · subst h4; rfl
    by_cases h5 : c = '\''
    · subst h5; rfl
    simp [escapeClass, escapeMap, h1, h2, h3, h4, h5]

/-- C4: for each of the paths `/`, `/about` and `/contact`, `handleGetRequest`
appends exactly one response, with status 200, the three headers of
`sendResponse` (among them `Content-Type: text/html; charset=utf-8`) and the
bytes of `generateHTML title fragment` for the pair fixed for that path, a page
that contains the title and the fragment; and a path answered with status 200
is one of these three strings exactly. -/
theorem handleGetRequest_known_paths (res : Res) (p title frag : JsString)
    (h : (p, title, frag) ∈
      [("/".toList, "Home".toList, "<p>Welcome to the Home Page</p>".toList),
       ("/about".toList, "About".toList, "<p>Learn more about us</p>".toList),
       ("/contact".toList, "Contact".toList, "<p>Get in touch</p>".toList)]) :
    handleGetRequest p res = res ++
        [{ statusCode := 200
           headers := [("Content-Type", .text "text/html; charset=utf-8"),
                       ("Content-Length", .number (bufferFrom (generateHTML title frag)).length),
                       ("X-Content-Type-Options", .text "nosniff")]
           body := bufferFrom (generateHTML title frag) }]
      ∧ title <:+: generateHTML title frag
      ∧ frag <:+: generateHTML title frag
      ∧ ∀ q r, handleGetRequest q res = res ++ [r] → r.statusCode = 200 →
          q = "/".toList ∨ q = "/about".toList ∨ q = "/contact".toList := by
  refine ⟨?_, title_infix_generateHTML _ _, content_infix_generateHTML _ _, ?_⟩
  · simp only [List.mem_cons, Prod.mk.injEq, List.mem_singleton, List.not_mem_nil,
      or_false] at h
    rcases h with ⟨rfl, rfl, rfl⟩ | ⟨rfl, rfl, rfl⟩ | ⟨rfl, rfl, rfl⟩ <;> rfl
  · intro q r hq hr
    by_contra hne
    push_neg at hne
    rw [handleGetRequest_other q res hne.1 hne.2.1 hne.2.2, sendResponse] at hq
    have := List.append_cancel_left hq
    simp only [List.cons.injEq, and_true] at this
    rw [← this] at hr
    simp at hr

/-- Witness for C4: the path `/about`; the paths `/About` and `/about/` are
answered with status 404. -/
theorem handleGetRequest_known_paths_witness :
    handleGetRequest "/about".toList [] =
        [{ statusCode := 200
           headers := [("Content-Type", .text "text/html; charset=utf-8"),
                       ("Content-Length", .number
                         (bufferFrom (generateHTML "About".toList
                           "<p>Learn more about us</p>".toList)).length),
                       ("X-Content-Type-Options", .text "nosniff")]
           body := bufferFrom (generateHTML "About".toList "<p>Learn more about us</p>".toList) }]
      ∧ "About".toList <:+: generateHTML "About".toList "<p>Learn more about us</p>".toList
      ∧ (handleGetRequest "/About".toList []).map (·.statusCode) = [404]
      ∧ (handleGetRequest "/about/".toList []).map (·.statusCode) = [404] :=
  have h := handleGetRequest_known_paths [] "/about".toList "About".toList
    "<p>Learn more about us</p>".toList (by simp)
  ⟨h.1, h.2.1, by decide, by decide⟩

/-- C5: a GET request for a path other than `/`, `/about` and `/contact`
(`/submit` included) and a POST request for a path other than `/submit` end,
whatever stream events follow, with exactly one response, of status 404 and
with a page containing `Page Not Found`; no listener is registered and no
event is consumed (the body buffer stays empty).  Here `method` is the
uppercased method of the request. -/
theorem unknown_path_not_found (method pathname : JsString) (events : List Event)
    (h : (method = "GET".toList ∧ pathname ≠ "/".toList
            ∧ pathname ≠ "/about".toList ∧ pathname ≠ "/contact".toList)
          ∨ (method = "POST".toList ∧ pathname ≠ "/submit".toList)) :
    serve { method := method, pathname := some pathname } events =
        { res := [{ statusCode := 404
                    headers := [("Content-Type", .text "text/html; charset=utf-8"),
                                ("Content-Length", .number (bufferFrom (generateHTML
                                  "404 Not Found".toList "<p>Page Not Found</p>".toList)).length),
                                ("X-Content-Type-Options", .text "nosniff")]
                    body := bufferFrom (generateHTML "404 Not Found".toList
                      "<p>Page Not Found</p>".toList) }]
          listening := false
          body := []
          destroyed := false }
      ∧ "Page Not Found".toList <:+:
          generateHTML "404 Not Found".toList "<p>Page Not Found</p>".toList := by
  refine ⟨?_, ?_⟩
  · unfold serve
    rcases h with ⟨hm, h1, h2, h3⟩ | ⟨hm, h1⟩
    · rw [requestListener_get _ _ hm, handleGetRequest_other pathname [] h1 h2 h3,
        foldl_emit_not_listening _ _ rfl]
      rfl
    · rw [requestListener_post _ _ hm]
      unfold handlePostRequest
      rw [if_pos h1, foldl_emit_not_listening _ _ rfl]
      rfl
  · exact List.IsInfix.trans ⟨"<p>".toList, "</p>".toList, rfl⟩ (content_infix_generateHTML _ _)

/-- Witness for C5: GET `/submit` and POST `/about`, each followed by stream
events. -/
theorem unknown_path_not_found_witness :
    (serve { method := "GET".toList, pathname := some "/submit".toList }
        [.dataChunk [110, 97, 109, 101], .endOfStream]).res.map (·.statusCode) = [404]
      ∧ (serve { method := "POST".toList, pathname := some "/about".toList }
        [.dataChunk [110, 97, 109, 101], .endOfStream]).res.map (·.statusCode) = [404] :=
  ⟨by rw [(unknown_path_not_found "GET".toList "/submit".toList _
        (Or.inl (by decide))).1]; rfl,
   by rw [(unknown_path_not_found "POST".toList "/about".toList _
        (Or.inr (by decide))).1]; rfl⟩

/-- C6, as stated, fails: a `PUT` request whose URL `url.parse` rejects is
answered by the `catch` block of the request listener with status 500, and
gets no 405. -/
theorem unparsed_url_server_error :
    (serve { method := "PUT".toList, pathname := none } []).res.map (·.statusCode) = [500] := by
  decide

/-- C6, amended: when `url.parse` accepts the URL of a request and its
uppercased method is neither `GET` nor `POST`, the exchange ends, for every
path and whatever stream events follow, with exactly one response, of status
405 and with the header `Allow: GET, POST`, and no listener of the POST handler
is registered; when the uppercased method is `GET` or `POST`, no response has
status 405. -/
theorem method_not_allowed (req : Request) (events : List Event) :
    (∀ pathname, req.pathname = some pathname →
        req.method ≠ "GET".toList → req.method ≠ "POST".toList →
        serve req events =
          { res := [{ statusCode := 405
                      headers := [("Content-Type", .text "text/html; charset=utf-8"),
                                  ("Allow", .text "GET, POST"),
                                  ("X-Content-Type-Options", .text "nosniff")]
                      body := bufferFrom (generateHTML "405 Method Not Allowed".toList
                        "<p>Method Not Allowed</p>".toList) }]
            listening := false
            body := []
            destroyed := false })
      ∧ (req.method = "GET".toList ∨ req.method = "POST".toList →
          ∀ r ∈ (serve req events).res, r.statusCode ≠ 405) := by
  obtain ⟨method, pn⟩ := req
  refine ⟨fun pathname hp h1 h2 => ?_, fun hm r hr => ?_⟩
  · simp only at hp h1 h2
    subst hp
    have hx : requestListener { method := method, pathname := some pathname } =
        { res := [{ statusCode := 405
                    headers := [("Content-Type", .text "text/html; charset=utf-8"),
                                ("Allow", .text "GET, POST"),
                                ("X-Content-Type-Options", .text "nosniff")]
                    body := bufferFrom (generateHTML "405 Method Not Allowed".toList
                      "<p>Method Not Allowed</p>".toList) }]
          listening := false
          body := []
          destroyed := false } := by
      show (if method = "GET".toList then _ else _) = _
      rw [if_neg h1, if_neg h2]
      rfl
    unfold serve
    rw [hx, foldl_emit_not_listening _ _ rfl]
  · simp only at hm
    cases pn with
    | none =>
      unfold serve at hr
      rw [foldl_emit_not_listening _ _ rfl] at hr
      change r ∈ [_] at hr
      rw [List.mem_singleton] at hr
      rw [hr]
      decide
    | some pathname =>
      obtain ⟨status, html, hs, h⟩ := serve_res_sent method pathname events r hm hr
      have hst : r.statusCode = status := by
        have h0 := List.head_eq_of_cons_eq h
        rw [← h0]
      rw [hst]
      rcases hs with rfl | rfl | rfl | rfl <;> decide

/-- Witness for C6: a `DELETE` request and a `POST` request for `/submit`,
each followed by stream events. -/
theorem method_not_allowed_witness :
    (serve { method := "DELETE".toList, pathname := some "/submit".toList }
        [.dataChunk [110, 97, 109, 101], .endOfStream]).res.map (·.statusCode) = [405]
      ∧ ∀ r ∈ (serve { method := "POST".toList, pathname := some "/submit".toList }
          [.dataChunk [110, 97, 109, 101], .endOfStream]).res, r.statusCode ≠ 405 :=
  ⟨by rw [(method_not_allowed { method := "DELETE".toList, pathname := some "/submit".toList }
        _).1 "/submit".toList rfl (by decide) (by decide)]; rfl,
   (method_not_allowed { method := "POST".toList, pathname := some "/submit".toList }
        _).2 (Or.inr (by decide))⟩

/-- Every response with a status other than 405 is sent through `sendResponse`:
it carries the three headers, and its `Content-Length` is the exact UTF-8 byte
length of its body. -/
theorem sent_response_headers (req : Request) (events : List Event) (r : Response)
    (hr : r ∈ (serve req events).res) (h405 : r.statusCode ≠ 405) :
    ("Content-Type", .text "text/html; charset=utf-8") ∈ r.headers
      ∧ ("X-Content-Type-Options", .text "nosniff") ∈ r.headers
      ∧ ∃ html : JsString, r.body = bufferFrom html
          ∧ r.body.length = (String.mk html).utf8ByteSize
          ∧ ("Content-Length", .number r.body.length) ∈ r.headers := by
  rcases serve_res_cases req events r hr with ⟨status, html, _, h⟩ | h
  · have h0 : r = { statusCode := status
                    headers := [("Content-Type", .text "text/html; charset=utf-8"),
                                ("Content-Length", .number (bufferFrom html).length),
                                ("X-Content-Type-Options", .text "nosniff")]
                    body := bufferFrom html } := (List.head_eq_of_cons_eq h).symm
    subst h0
    exact ⟨by simp, by simp, html, rfl, bufferFrom_length html, by simp⟩
  · subst h
    exact absurd rfl h405

/-- C7, at a failing input: the response to `PUT /` has status 405 and carries
`Content-Type` and `X-Content-Type-Options`, but its header object holds no
`Content-Length` entry, while the response to `GET /`, sent through
`sendResponse`, carries `Content-Length` with the byte length of its body. -/
theorem content_length_missing_on_405 :
    (∃ r ∈ (serve { method := "PUT".toList, pathname := some "/".toList } []).res,
        r.statusCode = 405
          ∧ ("Content-Type", HeaderValue.text "text/html; charset=utf-8") ∈ r.headers
          ∧ ("X-Content-Type-Options", HeaderValue.text "nosniff") ∈ r.headers
          ∧ "Content-Length" ∉ r.headers.map (·.1))
      ∧ ∃ r ∈ (serve { method := "GET".toList, pathname := some "/".toList } []).res,
          r.statusCode = 200 ∧ ("Content-Length", HeaderValue.number r.body.length) ∈ r.headers :=
  ⟨⟨_, List.mem_singleton.mpr rfl, rfl, by decide, by decide, by decide⟩,
   ⟨_, List.mem_singleton.mpr rfl, rfl,
     (sent_response_headers { method := "GET".toList, pathname := some "/".toList } [] _
       (List.mem_singleton.mpr rfl) (by decide)).2.2.choose_spec.2.2⟩⟩

/-- C9: on a data-chunk event of a POST `/submit` the text of the chunk is
appended to the buffer; when the length of the buffer (in UTF-16 code units,
the `length` of the string) then exceeds 1,048,576 the listener sends the 400
page `Request too large` and destroys the request, and when it is at most
1,048,576 the listener writes no response and does not destroy the request. -/
theorem data_chunk_limit (x : Exchange) (chunk : List Nat) (hl : x.listening = true) :
    (emit x (.dataChunk chunk)).body = x.body ++ bufferToString chunk
      ∧ (jsLength (x.body ++ bufferToString chunk) > 1048576 →
          (emit x (.dataChunk chunk)).res = x.res ++
              [{ statusCode := 400
                 headers := [("Content-Type", .text "text/html; charset=utf-8"),
                             ("Content-Length", .number (bufferFrom (generateHTML
                               "400 Bad Request".toList "<p>Request too large</p>".toList)).length),
                             ("X-Content-Type-Options", .text "nosniff")]
                 body := bufferFrom (generateHTML "400 Bad Request".toList
                   "<p>Request too large</p>".toList) }]
            ∧ "Request too large".toList <:+:
                generateHTML "400 Bad Request".toList "<p>Request too large</p>".toList
            ∧ (emit x (.dataChunk chunk)).destroyed = true)
      ∧ (jsLength (x.body ++ bufferToString chunk) ≤ 1048576 →
          (emit x (.dataChunk chunk)).res = x.res
            ∧ (emit x (.dataChunk chunk)).destroyed = x.destroyed) := by
  have he : emit x (.dataChunk chunk) = onData x chunk := if_pos hl
  rw [he]
  refine ⟨?_, fun h => ?_, fun h => ?_⟩
  · by_cases h : jsLength (x.body ++ bufferToString chunk) > 1024 * 1024
    · rw [onData_large x chunk h]
    · rw [onData_small x chunk (by omega)]
  · rw [onData_large x chunk h]
    exact ⟨rfl, List.IsInfix.trans ⟨"<p>".toList, "</p>".toList, rfl⟩
      (content_infix_generateHTML _ _), rfl⟩
  · rw [onData_small x chunk h]
    exact ⟨rfl, rfl⟩

/-- Witness for C9: a first chunk of exactly 1,048,576 letters `a` is buffered
without a response, and one of 1,048,577 letters is answered with status 400
and destroys the request. -/
theorem data_chunk_limit_witness :
    (emit { res := [], listening := true, body := [], destroyed := false }
        (.dataChunk (List.replicate 1048576 97))).res = []
      ∧ ((emit { res := [], listening := true, body := [], destroyed := false }
        (.dataChunk (List.replicate 1048577 97))).res.map (·.statusCode) = [400]
        ∧ (emit { res := [], listening := true, body := [], destroyed := false }
        (.dataChunk (List.replicate 1048577 97))).destroyed = true) :=
  ⟨((data_chunk_limit { res := [], listening := true, body := [], destroyed := false }
      (List.replicate 1048576 97) rfl).2.2
      (by rw [List.nil_append, bufferToString_replicate_ascii]
          rw [jsLength_replicate 1048576 'a' (by decide)])).1,
   have h := (data_chunk_limit { res := [], listening := true, body := [], destroyed := false }
      (List.replicate 1048577 97) rfl).2.1
      (by rw [List.nil_append, bufferToString_replicate_ascii]
          rw [jsLength_replicate 1048577 'a' (by decide)]
          omega)
   ⟨by rw [h.1]; rfl, h.2.2⟩⟩

/-- C10, at a failing input: a body of 524,289 copies of the two-byte letter
U+00E9, sent to POST `/submit` as one chunk, is 1,048,578 bytes long; the
data-chunk event writes no response and does not destroy the request, and the
response, written at end-of-stream, is the form-validation page `Invalid form
data`. -/
theorem oversized_body_not_rejected :
    (List.replicate 524289 [0xC3, 0xA9]).flatten.length = 1048578
      ∧ (serve { method := "POST".toList, pathname := some "/submit".toList }
          [.dataChunk (List.replicate 524289 [0xC3, 0xA9]).flatten]).res = []
      ∧ (serve { method := "POST".toList, pathname := some "/submit".toList }
          [.dataChunk (List.replicate 524289 [0xC3, 0xA9]).flatten]).destroyed = false
      ∧ (serve { method := "POST".toList, pathname := some "/submit".toList }
          [.dataChunk (List.replicate 524289 [0xC3, 0xA9]).flatten, .endOfStream]).res
        = sendResponse [] 400
            (generateHTML "400 Bad Request".toList "<p>Invalid form data</p>".toList) :=
  ⟨length_flatten_replicate_two_byte 524289,
   congrArg Exchange.res (serve_two_byte_data 524289 (by omega)),
   congrArg Exchange.destroyed (serve_two_byte_data 524289 (by omega)),
   serve_two_byte_end 524288 (by omega)⟩

/-- C8: for every sequence of data-chunk, end-of-stream and transport-error
events on the request stream of one POST `/submit`, the handler sends at most
one response; once the size-limit abort has destroyed the request no later
event, a data chunk in particular, changes anything; a transport-error event
makes the handler send its response only when none was sent before; and more
generally an event reaches a listener only while no response has been sent. -/
theorem one_response_per_submit (events : List Event) :
    (receive { method := "POST".toList, pathname := some "/submit".toList }
        events).exchange.res.length ≤ 1
      ∧ (∀ e : Event,
          (receive { method := "POST".toList, pathname := some "/submit".toList }
            events).exchange.destroyed = true →
          receive { method := "POST".toList, pathname := some "/submit".toList } (events ++ [e])
            = receive { method := "POST".toList, pathname := some "/submit".toList } events)
      ∧ ((receive { method := "POST".toList, pathname := some "/submit".toList }
            (events ++ [.transportError])).exchange.res
          ≠ (receive { method := "POST".toList, pathname := some "/submit".toList }
            events).exchange.res →
          (receive { method := "POST".toList, pathname := some "/submit".toList }
            events).exchange.res = [])
      ∧ ∀ e : Event,
          (receive { method := "POST".toList, pathname := some "/submit".toList }
            (events ++ [e])).exchange
          ≠ (receive { method := "POST".toList, pathname := some "/submit".toList }
            events).exchange →
          (receive { method := "POST".toList, pathname := some "/submit".toList }
            events).exchange.res = [] := by
  have hinv := foldl_deliver_invariant events
    { exchange := requestListener { method := "POST".toList, pathname := some "/submit".toList },
      closed := false }
    (by rw [requestListener_submit]; exact Nat.zero_le _)
    (by rw [requestListener_submit]; intro h; exact absurd rfl h)
  have hall : ∀ e : Event,
      (receive { method := "POST".toList, pathname := some "/submit".toList }
        (events ++ [e])).exchange
      ≠ (receive { method := "POST".toList, pathname := some "/submit".toList }
        events).exchange →
      (receive { method := "POST".toList, pathname := some "/submit".toList }
        events).exchange.res = [] := by
    intro e hne
    rw [receive_append] at hne
    exact deliver_changes_unsent _ e hinv.2 hne
  refine ⟨hinv.1, fun e hd => ?_, fun hne => ?_, hall⟩
  · rw [receive_append]
    unfold deliver
    rw [if_pos (by rw [hd, Bool.or_true])]
  · exact hall .transportError (fun h => hne (congrArg Exchange.res h))

set_option maxRecDepth 100000 in
/-- Witness for C8: a form answered at end-of-stream gets no second response
from a transport error that follows, and nothing follows the size-limit
abort. -/
theorem one_response_per_submit_witness :
    (receive { method := "POST".toList, pathname := some "/submit".toList }
        [.dataChunk (bufferFrom "name=a&email=b".toList), .endOfStream,
          .transportError]).exchange.res.length ≤ 1
      ∧ (receive { method := "POST".toList, pathname := some "/submit".toList }
        [.dataChunk (bufferFrom "name=a&email=b".toList), .endOfStream,
          .transportError]).exchange.res.map (·.statusCode) = [200]
      ∧ (receive { method := "POST".toList, pathname := some "/submit".toList }
        [.dataChunk (List.replicate 1048577 97), .dataChunk [97], .endOfStream,
          .transportError]).exchange.res.map (·.statusCode) = [400] :=
  ⟨(one_response_per_submit _).1, by decide, receive_ascii_overflow 1048577 (by omega) _⟩

set_option maxRecDepth 100000 in
/-- C2, as stated, fails: in the body `name=a&name=b` the field `email` is
missing, and the `end` listener answers with status 500, not with the 400 page
`Invalid form data`. -/
theorem repeated_name_server_error :
    getField (parse "name=a&name=b".toList) "email".toList = none
      ∧ getField (parse "name=a&name=b".toList) "name".toList
          = some (.arr ["a".toList, "b".toList])
      ∧ (serve { method := "POST".toList, pathname := some "/submit".toList }
          [.dataChunk (bufferFrom "name=a&name=b".toList), .endOfStream]).res
        = sendResponse [] 500
            (generateHTML "500 Internal Server Error".toList "<p>Server Error</p>".toList) :=
  ⟨by decide, by decide, by decide⟩

/-- C2, amended: for every body buffered at the end-of-stream event of a POST
`/submit` in which neither `name` nor `email` is repeated (neither parses to an
array), the `end` listener sends the 400 page `Invalid form data` if `name` or
`email` is missing or empty after trimming, and otherwise sends a 200 page that
contains `Name: ` followed by the escaped trimmed name and `Email: ` followed
by the escaped trimmed email. -/
theorem submit_validation (x : Exchange) (hl : x.listening = true)
    (hn : ∀ xs, getField (parse x.body) "name".toList ≠ some (.arr xs))
    (he : ∀ xs, getField (parse x.body) "email".toList ≠ some (.arr xs)) :
    ((getField (parse x.body) "name".toList = none
          ∨ (∃ n, getField (parse x.body) "name".toList = some (.str n) ∧ trim n = [])
          ∨ getField (parse x.body) "email".toList = none
          ∨ (∃ e, getField (parse x.body) "email".toList = some (.str e) ∧ trim e = [])) →
        (emit x .endOfStream).res = sendResponse x.res 400
            (generateHTML "400 Bad Request".toList "<p>Invalid form data</p>".toList)
          ∧ "Invalid form data".toList <:+:
              generateHTML "400 Bad Request".toList "<p>Invalid form data</p>".toList)
      ∧ ∀ n e, getField (parse x.body) "name".toList = some (.str n) →
          getField (parse x.body) "email".toList = some (.str e) →
          trim n ≠ [] → trim e ≠ [] →
          ∃ html, (emit x .endOfStream).res = sendResponse x.res 200 html
            ∧ ("Name: ".toList ++ escapeHtml (trim n)) <:+: html
            ∧ ("Email: ".toList ++ escapeHtml (trim e)) <:+: html := by
  have hemit : emit x .endOfStream = onEnd x := if_pos hl
  rw [hemit]
  unfold onEnd submitResult
  dsimp only
  rw [optionalTrim_str _ hn, optionalTrim_str _ he]
  refine ⟨fun h => ⟨?_, List.IsInfix.trans ⟨"<p>".toList, "</p>".toList, rfl⟩
    (content_infix_generateHTML _ _)⟩, fun n e h1 h2 h3 h4 => ?_⟩
  · rcases h with h | ⟨n, h, ht⟩ | h | ⟨e, h, ht⟩
    · rw [h]
      rfl
    · rw [h]
      cases hv : getField (parse x.body) "email".toList with
      | none => rfl
      | some w =>
        dsimp only [Option.map]
        rw [if_pos (Or.inl ht)]
    · rw [h]
      cases hv : getField (parse x.body) "name".toList with
      | none => rfl
      | some w => rfl
    · rw [h]
      cases hv : getField (parse x.body) "name".toList with
      | none => rfl
      | some w =>
        dsimp only [Option.map]
        rw [if_pos (Or.inr ht)]
  · rw [h1, h2]
    dsimp only [Option.map]
    rw [if_neg (by rintro (h | h) <;> contradiction)]
    refine ⟨_, rfl, ?_, ?_⟩
    · refine List.IsInfix.trans ?_ (content_infix_generateHTML _ _)
      exact ⟨"<p>".toList, "</p>\n         <p>Email: ".toList ++ escapeHtml (trim e)
        ++ "</p>".toList, by simp only [List.append_assoc]; rfl⟩
    · refine List.IsInfix.trans ?_ (content_infix_generateHTML _ _)
      exact ⟨"<p>Name: ".toList ++ escapeHtml (trim n) ++ "</p>\n         <p>".toList,
        "</p>".toList, by simp only [List.append_assoc]; rfl⟩

/-- Witness for C2: the body `name=Alice&email=alice%40example.com` is answered
with a 200 page containing `Name: Alice` and `Email: alice@example.com`, and
the body `name=&email=bob@example.com` with the 400 page. -/
theorem submit_validation_witness :
    (∃ html,
        (emit { res := [], listening := true,
                body := "name=Alice&email=alice%40example.com".toList, destroyed := false }
          .endOfStream).res = sendResponse [] 200 html
        ∧ "Name: Alice".toList <:+: html ∧ "Email: alice@example.com".toList <:+: html)
      ∧ (emit { res := [], listening := true, body := "name=&email=bob@example.com".toList,
                destroyed := false } .endOfStream).res
          = sendResponse [] 400
              (generateHTML "400 Bad Request".toList "<p>Invalid form data</p>".toList) := by
  have hn1 : getField (parse "name=Alice&email=alice%40example.com".toList) "name".toList
      = some (.str "Alice".toList) := by decide
  have he1 : getField (parse "name=Alice&email=alice%40example.com".toList) "email".toList
      = some (.str "alice@example.com".toList) := by decide
  have hn2 : getField (parse "name=&email=bob@example.com".toList) "name".toList
      = some (.str []) := by decide
  have he2 : getField (parse "name=&email=bob@example.com".toList) "email".toList
      = some (.str "bob@example.com".toList) := by decide
  refine ⟨?_, ?_⟩
  · exact (submit_validation
      { res := [], listening := true, body := "name=Alice&email=alice%40example.com".toList,
        destroyed := false } rfl
      (fun xs h => by rw [hn1] at h; cases h) (fun xs h => by rw [he1] at h; cases h)).2
      "Alice".toList "alice@example.com".toList hn1 he1 (by decide) (by decide)
  · exact ((submit_validation
      { res := [], listening := true, body := "name=&email=bob@example.com".toList,
        destroyed := false } rfl
      (fun xs h => by rw [hn2] at h; cases h) (fun xs h => by rw [he2] at h; cases h)).1
      (Or.inr (Or.inl ⟨[], hn2, rfl⟩))).1

/-- C3: when the `end` listener of a POST `/submit` accepts the form and sends
its 200 page, that page is `generateHTML` applied to the outputs of
`escapeHtml` on the two fields and never contains the literal `<script>`; the
output of `escapeHtml` contains, for every input string, none of the characters
`<`, `>`, double quote and apostrophe. -/
theorem success_page_has_no_script (x : Exchange) (html : JsString)
    (hl : x.listening = true) (h : submitResult x.body = .ok (200, html)) :
    (emit x .endOfStream).res = sendResponse x.res 200 html
      ∧ ¬ "<script>".toList <:+: html
      ∧ (∃ name email, name ≠ [] ∧ email ≠ [] ∧
          html = generateHTML "Form Submitted".toList
            ("<p>Name: ".toList ++ escapeHtml name ++ "</p>\n         <p>Email: ".toList
              ++ escapeHtml email ++ "</p>".toList))
      ∧ ∀ s : JsString, ∀ c ∈ escapeHtml s, c ≠ '<' ∧ c ≠ '>' ∧ c ≠ '"' ∧ c ≠ '\'' := by
  have hemit : emit x .endOfStream = onEnd x := if_pos hl
  have hres : (onEnd x).res = sendResponse x.res 200 html := by
    unfold onEnd
    rw [h]
  have hshape : ∃ name email, name ≠ [] ∧ email ≠ [] ∧
      html = generateHTML "Form Submitted".toList
        ("<p>Name: ".toList ++ escapeHtml name ++ "</p>\n         <p>Email: ".toList
          ++ escapeHtml email ++ "</p>".toList) := by
    unfold submitResult at h
    dsimp only at h
    cases h1 : optionalTrim (getField (parse x.body) "name".toList) with
    | error e => rw [h1] at h; cases h
    | ok name =>
      rw [h1] at h
      dsimp only at h
      cases h2 : optionalTrim (getField (parse x.body) "email".toList) with
      | error e => rw [h2] at h; cases h
      | ok email =>
        rw [h2] at h
        dsimp only at h
        cases name with
        | none => cases h
        | some name =>
          cases email with
          | none => cases h
          | some email =>
            dsimp only at h
            by_cases hv : name = [] ∨ email = []
            · rw [if_pos hv] at h; cases h
            · rw [if_neg hv] at h
              push_neg at hv
              cases h
              exact ⟨name, email, hv.1, hv.2, rfl⟩
  refine ⟨by rw [hemit, hres], ?_, hshape, escapeHtml_chars⟩
  obtain ⟨name, email, _, _, rfl⟩ := hshape
  exact success_page_no_script name email

set_option maxRecDepth 100000 in
/-- Witness for C3: for the body `name=<script>&email=x@y.com` the 200 page
contains `&lt;script&gt;` and no `<script>`. -/
theorem success_page_has_no_script_witness :
    ¬ "<script>".toList <:+: generateHTML "Form Submitted".toList
        "<p>Name: &lt;script&gt;</p>\n         <p>Email: x@y.com</p>".toList
      ∧ "&lt;script&gt;".toList <:+: generateHTML "Form Submitted".toList
        "<p>Name: &lt;script&gt;</p>\n         <p>Email: x@y.com</p>".toList
      ∧ (serve { method := "POST".toList, pathname := some "/submit".toList }
          [.dataChunk (bufferFrom "name=<script>&email=x@y.com".toList), .endOfStream]).res
        = sendResponse [] 200 (generateHTML "Form Submitted".toList
            "<p>Name: &lt;script&gt;</p>\n         <p>Email: x@y.com</p>".toList) :=
  have h := success_page_has_no_script
    (serve { method := "POST".toList, pathname := some "/submit".toList }
      [.dataChunk (bufferFrom "name=<script>&email=x@y.com".toList)])
    (generateHTML "Form Submitted".toList
      "<p>Name: &lt;script&gt;</p>\n         <p>Email: x@y.com</p>".toList)
    (by decide) (by decide)
  ⟨h.2.1,
   List.IsInfix.trans ⟨"<p>Name: ".toList, "</p>\n         <p>Email: x@y.com</p>".toList, rfl⟩
     (content_infix_generateHTML _ _),
   h.1⟩

end Server
